import Mathlib

/-!
Verification of the `mpu6050improved` register-level driver (`src/lib.rs`).

The crate declares `mod bits;` and `pub mod device;`, whose files are not part of
the repository snapshot; definitions taken from those modules are modelled from
the specification and carry a doc comment starting `Modelled from the spec:`.
Everything else is a shallow embedding of `src/lib.rs`.

Machine integers (`u8`, `i32`) are embedded as `Nat` / `Int` with explicit byte
bounds; `f32` values are embedded as real numbers; the `embedded_hal` i2c bus is
embedded as a register file together with an explicit failure model and a log
of the successful write transactions.
-/

namespace Mpu6050Verif

/-! ## Bit-field primitives (`mod bits`) -/

/-- Modelled from the spec: the file of `mod bits;` is missing from the snapshot.
§4.1: `get_bit(byte, n)` is the value (0 or 1) of bit `n`, 0-indexed from the LSB. -/
def get_bit (byte n : Nat) : Nat :=
  (byte >>> n) &&& 1

/-- Modelled from the spec: the file of `mod bits;` is missing from the snapshot.
§4.1: `set_bit` sets/clears bit `n` of the byte; all other bits unchanged.
The Rust function mutates a `u8` in place; here the new byte is returned
(`!(1 << n)` on a `u8` is `255 ^^^ (1 <<< n)`). -/
def set_bit (byte n : Nat) (enable : Bool) : Nat :=
  if enable then byte ||| (1 <<< n) else byte &&& (255 ^^^ (1 <<< n))

/-- Modelled from the spec: the file of `mod bits;` is missing from the snapshot.
§4.1: `get_bits(byte, start, length)` extracts `length` bits ending at `start`
(bits `[start-length+1 .. start]`), right-aligned in the result. -/
def get_bits (byte start length : Nat) : Nat :=
  let lo := start + 1 - length
  (byte &&& (((1 <<< length) - 1) <<< lo)) >>> lo

/-- Modelled from the spec: the file of `mod bits;` is missing from the snapshot.
§4.1: `set_bits(byte, start, length, data)` writes the low `length` bits of `data`
into the run `[start-length+1 .. start]`, leaving all other bits untouched. -/
def set_bits (byte start length data : Nat) : Nat :=
  let lo := start + 1 - length
  let mask := ((1 <<< length) - 1) <<< lo
  (byte &&& (255 ^^^ mask)) ||| ((data <<< lo) &&& mask)

/-! ## Two's-complement decode (`read_word_2c` in `src/lib.rs`) -/

/-- `read_word_2c` from `src/lib.rs`: the two bytes are the high and low byte of a
16-bit word; `(high << 8) + low` is written `high * 256 + low` (no `i32` overflow,
both inputs are bytes). -/
def read_word_2c (high low : Nat) : Int :=
  let word : Int := (high : Int) * 256 + low
  if 0x8000 ≤ word then -((65535 - word) + 1) else word

/-! ## Register map and range tables (`pub mod device`)

The file of `pub mod device;` is missing from the snapshot; all constants below are
modelled from the spec (§6 register map, §3 range enumerations, §8 sensitivity
values).  Bit positions inside a register, which the spec names but does not number,
use the MPU-6050 datasheet positions; no claim depends on the particular numbers. -/

/-- Modelled from the spec: a named bit-field location, offset (`bit` = MSB of the
run, 0-indexed from LSB) plus bit length (§3 `RegisterField`). -/
structure BitBlock where
  bit : Nat
  length : Nat

/-- Modelled from the spec: default slave address 0x68 (§6). -/
def DEFAULT_SLAVE_ADDR : Nat := 0x68

/-- Modelled from the spec: identity register WHOAMI, address 0x75 (§6). -/
def WHOAMI : Nat := 0x75

/- Modelled from the spec: power-management register 1, address 0x6B, holding the
sleep, temp-disable, clock-select and device-reset bits (§6). -/
namespace PWR_MGMT_1

def ADDR : Nat := 0x6B

def DEVICE_RESET : Nat := 7

def SLEEP : Nat := 6

def TEMP_DIS : Nat := 3

def CLKSEL : BitBlock := ⟨2, 3⟩

end PWR_MGMT_1

/- Modelled from the spec: accelerometer self-test/range register, address 0x1C,
holding the FS_SEL range, HPF mode and XA/YA/ZA self-test bits (§6). -/
namespace ACCEL_CONFIG

def ADDR : Nat := 0x1C

def XA_ST : Nat := 7

def YA_ST : Nat := 6

def ZA_ST : Nat := 5

def FS_SEL : BitBlock := ⟨4, 2⟩

def ACCEL_HPF : BitBlock := ⟨2, 3⟩

end ACCEL_CONFIG

/- Modelled from the spec: gyro self-test/range register, address 0x1B (§6). -/
namespace GYRO_CONFIG

def ADDR : Nat := 0x1B

def FS_SEL : BitBlock := ⟨4, 2⟩

end GYRO_CONFIG

/- Modelled from the spec: interrupt pin configuration register, address 0x37 (§6). -/
namespace INT_PIN_CFG

def ADDR : Nat := 0x37

end INT_PIN_CFG

/- Modelled from the spec: interrupt enable register, address 0x38, with the
motion-interrupt bit (§6). -/
namespace INT_ENABLE

def ADDR : Nat := 0x38

end INT_ENABLE

/- Modelled from the spec: interrupt status register, address 0x3A, with the
motion-interrupt flag (§6). -/
namespace INT_STATUS

def ADDR : Nat := 0x3A

def MOT_INT : Nat := 6

end INT_STATUS

/-- Modelled from the spec: motion threshold register, address 0x1F (§6). -/
def MOT_THR : Nat := 0x1F

/-- Modelled from the spec: motion duration register, address 0x20 (§6). -/
def MOT_DUR : Nat := 0x20

/-- Modelled from the spec: accel data block base (X high byte), address 0x3B (§6). -/
def ACC_REGX_H : Nat := 0x3B

/-- Modelled from the spec: gyro data block base (X high byte), address 0x43 (§6). -/
def GYRO_REGX_H : Nat := 0x43

/-- Modelled from the spec: temperature data high byte, address 0x41 (§6). -/
def TEMP_OUT_H : Nat := 0x41

/-- Modelled from the spec: accelerometer range enumeration ±2g/±4g/±8g/±16g (§3). -/
inductive AccelRange where
  | G2
  | G4
  | G8
  | G16
deriving DecidableEq

/-- Modelled from the spec: gyro range enumeration ±250/±500/±1000/±2000 °/s (§3). -/
inductive GyroRange where
  | D250
  | D500
  | D1000
  | D2000
deriving DecidableEq

/-- Modelled from the spec: per-variant accelerometer sensitivity lookup table
(§3, §8: ±2g maps to 16384 LSB/g, halving per doubled range). -/
noncomputable def AccelRange.sensitivity : AccelRange → ℝ
  | .G2 => 16384
  | .G4 => 8192
  | .G8 => 4096
  | .G16 => 2048

/-- Modelled from the spec: the 2-bit register value selecting the accel range
(`range as u8` in `src/lib.rs`). -/
def AccelRange.as_u8 : AccelRange → Nat
  | .G2 => 0
  | .G4 => 1
  | .G8 => 2
  | .G16 => 3

/-- Modelled from the spec: per-variant gyro sensitivity lookup table
(§3, §8: ±250°/s maps to 131 LSB per °/s, halving per doubled range). -/
noncomputable def GyroRange.sensitivity : GyroRange → ℝ
  | .D250 => 131
  | .D500 => 65.5
  | .D1000 => 32.8
  | .D2000 => 16.4

/-- Modelled from the spec: the 2-bit register value selecting the gyro range
(`range as u8` in `src/lib.rs`). -/
def GyroRange.as_u8 : GyroRange → Nat
  | .D250 => 0
  | .D500 => 1
  | .D1000 => 2
  | .D2000 => 3

/-- Modelled from the spec: the accel sensitivity tuple `ACCEL_SENS`;
`src/lib.rs` uses component `.0` (the ±2g value) as the builder default. -/
noncomputable def ACCEL_SENS : ℝ × ℝ × ℝ × ℝ := (16384, 8192, 4096, 2048)

/-- Modelled from the spec: the gyro sensitivity tuple `GYRO_SENS`;
`src/lib.rs` uses component `.0` (the ±250°/s value) as the builder default. -/
noncomputable def GYRO_SENS : ℝ × ℝ × ℝ × ℝ := (131, 65.5, 32.8, 16.4)

/-- Modelled from the spec: accelerometer high-pass-filter mode (3-bit field, §4.3);
`_RESET` is the reset/disabled mode applied by `init`. -/
inductive ACCEL_HPF where
  | _RESET
  | _5
  | _2P5
  | _1P25
  | _0P63
  | _HOLD
deriving DecidableEq

/-- Modelled from the spec: the 3-bit register value of a high-pass-filter mode. -/
def ACCEL_HPF.as_u8 : ACCEL_HPF → Nat
  | ._RESET => 0
  | ._5 => 1
  | ._2P5 => 2
  | ._1P25 => 3
  | ._0P63 => 4
  | ._HOLD => 7

/-- Modelled from the spec: clock source selection (3-bit field, §4.3). -/
inductive CLKSEL where
  | OSCILL
  | GXAXIS
  | GYAXIS
  | GZAXIS
  | EXT_32p7
  | EXT_19P2
  | RESERV
  | STOP
deriving DecidableEq

/-- Modelled from the spec: the 3-bit register value of a clock source. -/
def CLKSEL.as_u8 : CLKSEL → Nat
  | .OSCILL => 0
  | .GXAXIS => 1
  | .GYAXIS => 2
  | .GZAXIS => 3
  | .EXT_32p7 => 4
  | .EXT_19P2 => 5
  | .RESERV => 6
  | .STOP => 7

/-! ## Scalar constants and 3-vectors (`src/lib.rs`, glam `Vec3A`) -/

/-- `PI` from `src/lib.rs` (`core::f32::consts::PI`, embedded exactly). -/
noncomputable def PI : ℝ := Real.pi

/-- `PI_180` from `src/lib.rs`: `PI / 180.0`, for conversion to radians. -/
noncomputable def PI_180 : ℝ := PI / 180

/-- The glam `Vec3A` value type: a 3-component vector, embedded over ℝ. -/
structure Vec3 where
  x : ℝ
  y : ℝ
  z : ℝ

/-- glam `Vec3A::ZERO`. -/
noncomputable def Vec3.zero : Vec3 := ⟨0, 0, 0⟩

/-- glam componentwise `Vec3A / f32` (the `acc /= self.acc_sensitivity` step). -/
noncomputable def Vec3.divScalar (v : Vec3) (s : ℝ) : Vec3 :=
  ⟨v.x / s, v.y / s, v.z / s⟩

/-- glam componentwise `Vec3A * f32` (the `gyro *= PI_180 / sens` step). -/
noncomputable def Vec3.mulScalar (v : Vec3) (s : ℝ) : Vec3 :=
  ⟨v.x * s, v.y * s, v.z * s⟩

/-- glam componentwise vector addition (the `+ offset` step). -/
noncomputable def Vec3.add (v w : Vec3) : Vec3 :=
  ⟨v.x + w.x, v.y + w.y, v.z + w.z⟩

/-! ## Bus model

The `embedded_hal` i2c bus is an external collaborator (spec §6); it is embedded
as a byte-register file with an explicit failure model and a log of the successful
write transactions. -/

/-- Modelled from the spec: the external bus capability of §6.  `regs` is the
register file (bytes are read back modulo 256), `failW reg v` / `failR reg` decide
whether the write / write-read transaction on `reg` reports a transport error, and
`log` records the `[register, value]` pairs of the successful write transactions
in order. -/
structure Bus where
  regs : Nat → Nat
  failW : Nat → Nat → Bool
  failR : Nat → Bool
  log : List (Nat × Nat)

/-- Modelled from the spec: the bus `write(address, [reg, value])` transaction.
On success the register file and the log are updated; on failure nothing changes. -/
def Bus.write (b : Bus) (reg v : Nat) : Except Unit Bus :=
  if b.failW reg v then .error ()
  else .ok { b with
    regs := fun r => if r = reg then v else b.regs r,
    log := b.log ++ [(reg, v)] }

/-- Modelled from the spec: the bus `write_read` transaction returning `len`
consecutive register bytes starting at `reg`. -/
def Bus.writeRead (b : Bus) (reg len : Nat) : Except Unit (List Nat) :=
  if b.failR reg then .error ()
  else .ok ((List.range len).map fun i => b.regs (reg + i) % 256)

/-! ## Errors, Device, Builder (`src/lib.rs`) -/

/-- `Mpu6050Error` from `src/lib.rs`; the opaque transport error payload `E` is
embedded as `Unit`. -/
inductive Mpu6050Error where
  | I2c : Unit → Mpu6050Error
  | InvalidChipId : Nat → Mpu6050Error
deriving DecidableEq

/-- `Mpu6050BuilderError` from `src/lib.rs`. -/
inductive Mpu6050BuilderError where
  | NoI2cDeviceProvided
deriving DecidableEq

/-- The `Mpu6050` device struct from `src/lib.rs`. -/
structure Mpu6050 where
  i2c : Bus
  slave_addr : Nat
  acc_sensitivity : ℝ
  gyro_sensitivity : ℝ
  gyro_offset : Vec3
  acc_offset : Vec3

/-- The `Mpu6050Builder` struct from `src/lib.rs`. -/
structure Mpu6050Builder where
  i2c : Option Bus
  slave_addr : Option Nat
  acc_sensitivity : Option AccelRange
  gyro_sensitivity : Option GyroRange
  gyro_offset : Option Vec3
  acc_offset : Option Vec3

/-- `Mpu6050Builder::new` from `src/lib.rs`. -/
def Mpu6050Builder.new : Mpu6050Builder :=
  ⟨none, none, none, none, none, none⟩

/-- `Mpu6050Builder::build` from `src/lib.rs`: fails when no bus was supplied,
otherwise fills unsupplied fields with the documented defaults. -/
noncomputable def Mpu6050Builder.build (b : Mpu6050Builder) :
    Except Mpu6050BuilderError Mpu6050 :=
  match b.i2c with
  | none => .error .NoI2cDeviceProvided
  | some i2c => .ok
    { i2c := i2c
      slave_addr := b.slave_addr.getD DEFAULT_SLAVE_ADDR
      acc_sensitivity := (b.acc_sensitivity.map AccelRange.sensitivity).getD ACCEL_SENS.1
      gyro_sensitivity := (b.gyro_sensitivity.map GyroRange.sensitivity).getD GYRO_SENS.1
      gyro_offset := b.gyro_offset.getD Vec3.zero
      acc_offset := b.acc_offset.getD Vec3.zero }

/-! ## Register access layer (`src/lib.rs`)

Reads never change the device; writes return the updated device together with the
result, mirroring `&mut self` methods whose partial effects survive an early
`?`-return. -/

/-- `read_byte` from `src/lib.rs`: one combined write-read transaction of 1 byte. -/
def read_byte (d : Mpu6050) (reg : Nat) : Except Mpu6050Error Nat :=
  match d.i2c.writeRead reg 1 with
  | .error _ => .error (.I2c ())
  | .ok bytes => .ok (bytes.headD 0)

/-- `read_bytes` from `src/lib.rs`: one combined write-read transaction; the buffer
length (here `len`) determines how many consecutive registers are read. -/
def read_bytes (d : Mpu6050) (reg len : Nat) : Except Mpu6050Error (List Nat) :=
  match d.i2c.writeRead reg len with
  | .error _ => .error (.I2c ())
  | .ok bytes => .ok bytes

/-- `write_byte` from `src/lib.rs`: one write transaction of `[reg, byte]`. -/
def write_byte (d : Mpu6050) (reg byte : Nat) : Mpu6050 × Except Mpu6050Error Unit :=
  match d.i2c.write reg byte with
  | .error _ => (d, .error (.I2c ()))
  | .ok b => ({ d with i2c := b }, .ok ())

/-- `write_bit` from `src/lib.rs`: read the register byte, set bit `bit_n`, write the
byte back (read-modify-write, two bus transactions). -/
def write_bit (d : Mpu6050) (reg bit_n : Nat) (enable : Bool) :
    Mpu6050 × Except Mpu6050Error Unit :=
  match read_byte d reg with
  | .error e => (d, .error e)
  | .ok byte => write_byte d reg (set_bit byte bit_n enable)

/-- `write_bits` from `src/lib.rs`: read the register byte, overwrite the bit run,
write the byte back. -/
def write_bits (d : Mpu6050) (reg start_bit length data : Nat) :
    Mpu6050 × Except Mpu6050Error Unit :=
  match read_byte d reg with
  | .error e => (d, .error e)
  | .ok byte => write_byte d reg (set_bits byte start_bit length data)

/-- `read_bit` from `src/lib.rs`. -/
def read_bit (d : Mpu6050) (reg bit_n : Nat) : Except Mpu6050Error Nat :=
  match read_byte d reg with
  | .error e => .error e
  | .ok byte => .ok (get_bit byte bit_n)

/-- `read_bits` from `src/lib.rs`. -/
def read_bits (d : Mpu6050) (reg start_bit length : Nat) : Except Mpu6050Error Nat :=
  match read_byte d reg with
  | .error e => .error e
  | .ok byte => .ok (get_bits byte start_bit length)

/-! ## Configuration and initialization (`src/lib.rs`) -/

/-- `wake` from `src/lib.rs`: writes the whole byte 0x01 to the power-management
register (wake + PLL-with-gyro-X clock source), then a fixed 100 ms delay; the
delay capability has no observable effect in the model. -/
def wake (d : Mpu6050) : Mpu6050 × Except Mpu6050Error Unit :=
  write_byte d PWR_MGMT_1.ADDR 0x01

/-- `verify` from `src/lib.rs`: reads WHOAMI and fails with `InvalidChipId` carrying
the byte read when it differs from `DEFAULT_SLAVE_ADDR`. -/
def verify (d : Mpu6050) : Except Mpu6050Error Unit :=
  match read_byte d WHOAMI with
  | .error e => .error e
  | .ok address =>
    if address ≠ DEFAULT_SLAVE_ADDR then .error (.InvalidChipId address) else .ok ()

/-- `set_gyro_range` from `src/lib.rs`: writes the 2-bit FS_SEL field, then updates
the cached sensitivity (not reached when the bus write fails). -/
noncomputable def set_gyro_range (d : Mpu6050) (range : GyroRange) :
    Mpu6050 × Except Mpu6050Error Unit :=
  match write_bits d GYRO_CONFIG.ADDR GYRO_CONFIG.FS_SEL.bit GYRO_CONFIG.FS_SEL.length
      range.as_u8 with
  | (d1, .error e) => (d1, .error e)
  | (d1, .ok _) => ({ d1 with gyro_sensitivity := range.sensitivity }, .ok ())

/-- `set_accel_range` from `src/lib.rs`: writes the 2-bit FS_SEL field, then updates
the cached sensitivity (not reached when the bus write fails). -/
noncomputable def set_accel_range (d : Mpu6050) (range : AccelRange) :
    Mpu6050 × Except Mpu6050Error Unit :=
  match write_bits d ACCEL_CONFIG.ADDR ACCEL_CONFIG.FS_SEL.bit
      ACCEL_CONFIG.FS_SEL.length range.as_u8 with
  | (d1, .error e) => (d1, .error e)
  | (d1, .ok _) => ({ d1 with acc_sensitivity := range.sensitivity }, .ok ())

/-- `set_accel_hpf` from `src/lib.rs`: writes the 3-bit high-pass-filter field. -/
def set_accel_hpf (d : Mpu6050) (mode : ACCEL_HPF) : Mpu6050 × Except Mpu6050Error Unit :=
  write_bits d ACCEL_CONFIG.ADDR ACCEL_CONFIG.ACCEL_HPF.bit
    ACCEL_CONFIG.ACCEL_HPF.length mode.as_u8

/-- `set_clock_source` from `src/lib.rs`: writes the 3-bit CLKSEL field. -/
def set_clock_source (d : Mpu6050) (source : CLKSEL) : Mpu6050 × Except Mpu6050Error Unit :=
  write_bits d PWR_MGMT_1.ADDR PWR_MGMT_1.CLKSEL.bit PWR_MGMT_1.CLKSEL.length
    source.as_u8

/-- `init` from `src/lib.rs`: wake, verify identity, set default accel range (±2g),
default gyro range (±250°/s) and reset the accel high-pass filter; stops at the
first failing step. -/
noncomputable def init (d : Mpu6050) : Mpu6050 × Except Mpu6050Error Unit :=
  match wake d with
  | (d1, .error e) => (d1, .error e)
  | (d1, .ok _) =>
    match verify d1 with
    | .error e => (d1, .error e)
    | .ok _ =>
      match set_accel_range d1 AccelRange.G2 with
      | (d2, .error e) => (d2, .error e)
      | (d2, .ok _) =>
        match set_gyro_range d2 GyroRange.D250 with
        | (d3, .error e) => (d3, .error e)
        | (d3, .ok _) => set_accel_hpf d3 ACCEL_HPF._RESET

/-- The fixed ordered write sequence of `setup_motion_detection` in `src/lib.rs`,
as `(register, value)` pairs. -/
def motionSeq : List (Nat × Nat) :=
  [(0x6B, 0x00), (INT_PIN_CFG.ADDR, 0x20), (ACCEL_CONFIG.ADDR, 0x01),
   (MOT_THR, 10), (MOT_DUR, 40), (0x69, 0x15), (INT_ENABLE.ADDR, 0x40)]

/-- `setup_motion_detection` from `src/lib.rs`: the fixed ordered sequence of
whole-byte writes, stopping at the first failing write. -/
def setup_motion_detection (d : Mpu6050) : Mpu6050 × Except Mpu6050Error Unit :=
  match write_byte d 0x6B 0x00 with
  | (d1, .error e) => (d1, .error e)
  | (d1, .ok _) =>
    match write_byte d1 INT_PIN_CFG.ADDR 0x20 with
    | (d2, .error e) => (d2, .error e)
    | (d2, .ok _) =>
      match write_byte d2 ACCEL_CONFIG.ADDR 0x01 with
      | (d3, .error e) => (d3, .error e)
      | (d3, .ok _) =>
        match write_byte d3 MOT_THR 10 with
        | (d4, .error e) => (d4, .error e)
        | (d4, .ok _) =>
          match write_byte d4 MOT_DUR 40 with
          | (d5, .error e) => (d5, .error e)
          | (d5, .ok _) =>
            match write_byte d5 0x69 0x15 with
            | (d6, .error e) => (d6, .error e)
            | (d6, .ok _) => write_byte d6 INT_ENABLE.ADDR 0x40

/-- `get_motion_detected` from `src/lib.rs`. -/
def get_motion_detected (d : Mpu6050) : Except Mpu6050Error Bool :=
  match read_bit d INT_STATUS.ADDR INT_STATUS.MOT_INT with
  | .error e => .error e
  | .ok b => .ok (b != 0)

/-- `reset_device` from `src/lib.rs`: sets the reset bit then delays (no observable
delay effect in the model). -/
def reset_device (d : Mpu6050) : Mpu6050 × Except Mpu6050Error Unit :=
  write_bit d PWR_MGMT_1.ADDR PWR_MGMT_1.DEVICE_RESET true

/-- `set_sleep_enabled` from `src/lib.rs`. -/
def set_sleep_enabled (d : Mpu6050) (enable : Bool) : Mpu6050 × Except Mpu6050Error Unit :=
  write_bit d PWR_MGMT_1.ADDR PWR_MGMT_1.SLEEP enable

/-- `get_sleep_enabled` from `src/lib.rs`. -/
def get_sleep_enabled (d : Mpu6050) : Except Mpu6050Error Bool :=
  match read_bit d PWR_MGMT_1.ADDR PWR_MGMT_1.SLEEP with
  | .error e => .error e
  | .ok b => .ok (b != 0)

/-- `set_temp_enabled` from `src/lib.rs`: the TEMP_DIS register bit stores the
disabled status, so the bit written is the negation of `enable`. -/
def set_temp_enabled (d : Mpu6050) (enable : Bool) : Mpu6050 × Except Mpu6050Error Unit :=
  write_bit d PWR_MGMT_1.ADDR PWR_MGMT_1.TEMP_DIS (!enable)

/-- `get_temp_enabled` from `src/lib.rs`: the sensor is enabled exactly when the
TEMP_DIS bit reads 0. -/
def get_temp_enabled (d : Mpu6050) : Except Mpu6050Error Bool :=
  match read_bit d PWR_MGMT_1.ADDR PWR_MGMT_1.TEMP_DIS with
  | .error e => .error e
  | .ok b => .ok (b == 0)

/-- `set_accel_x_self_test` from `src/lib.rs`. -/
def set_accel_x_self_test (d : Mpu6050) (enable : Bool) :
    Mpu6050 × Except Mpu6050Error Unit :=
  write_bit d ACCEL_CONFIG.ADDR ACCEL_CONFIG.XA_ST enable

/-- `set_accel_y_self_test` from `src/lib.rs`. -/
def set_accel_y_self_test (d : Mpu6050) (enable : Bool) :
    Mpu6050 × Except Mpu6050Error Unit :=
  write_bit d ACCEL_CONFIG.ADDR ACCEL_CONFIG.YA_ST enable

/-- `set_accel_z_self_test` from `src/lib.rs`. -/
def set_accel_z_self_test (d : Mpu6050) (enable : Bool) :
    Mpu6050 × Except Mpu6050Error Unit :=
  write_bit d ACCEL_CONFIG.ADDR ACCEL_CONFIG.ZA_ST enable

/-! ## Measurement accessors (`src/lib.rs`) -/

/-- `read_rot` from `src/lib.rs`: reads 6 consecutive bytes and decodes the three
big-endian two's-complement axis words, promoted to float. -/
noncomputable def read_rot (d : Mpu6050) (reg : Nat) : Except Mpu6050Error Vec3 :=
  match read_bytes d reg 6 with
  | .error e => .error e
  | .ok buf => .ok
    ⟨((read_word_2c (buf.getD 0 0) (buf.getD 1 0) : Int) : ℝ),
     ((read_word_2c (buf.getD 2 0) (buf.getD 3 0) : Int) : ℝ),
     ((read_word_2c (buf.getD 4 0) (buf.getD 5 0) : Int) : ℝ)⟩

/-- `get_acc` from `src/lib.rs`: raw reading divided by the cached sensitivity,
then the offset is added. -/
noncomputable def get_acc (d : Mpu6050) : Except Mpu6050Error Vec3 :=
  match read_rot d ACC_REGX_H with
  | .error e => .error e
  | .ok acc => .ok ((acc.divScalar d.acc_sensitivity).add d.acc_offset)

/-- `get_gyro` from `src/lib.rs`: raw reading multiplied by `PI_180 / sensitivity`,
then the offset is added. -/
noncomputable def get_gyro (d : Mpu6050) : Except Mpu6050Error Vec3 :=
  match read_rot d GYRO_REGX_H with
  | .error e => .error e
  | .ok gyro => .ok ((gyro.mulScalar (PI_180 / d.gyro_sensitivity)).add d.gyro_offset)

/-! ## Roll/pitch estimation (glam `Quat`, `get_acc_angles` in `src/lib.rs`) -/

/-- The glam `Quat` value type, embedded over ℝ (components named w, x, y, z). -/
structure Quat where
  w : ℝ
  x : ℝ
  y : ℝ
  z : ℝ

/-- Hamilton quaternion product (glam `Mul for Quat`). -/
noncomputable def Quat.mul (a b : Quat) : Quat :=
  ⟨a.w * b.w - a.x * b.x - a.y * b.y - a.z * b.z,
   a.w * b.x + a.x * b.w + a.y * b.z - a.z * b.y,
   a.w * b.y - a.x * b.z + a.y * b.w + a.z * b.x,
   a.w * b.z + a.x * b.y - a.y * b.x + a.z * b.w⟩

/-- glam `Quat::from_rotation_x`: rotation of `a` radians about the X axis. -/
noncomputable def Quat.from_rotation_x (a : ℝ) : Quat :=
  ⟨Real.cos (a / 2), Real.sin (a / 2), 0, 0⟩

/-- glam `Quat::from_rotation_y`: rotation of `a` radians about the Y axis. -/
noncomputable def Quat.from_rotation_y (a : ℝ) : Quat :=
  ⟨Real.cos (a / 2), 0, Real.sin (a / 2), 0⟩

/-- glam `Quat::from_rotation_z`: rotation of `a` radians about the Z axis. -/
noncomputable def Quat.from_rotation_z (a : ℝ) : Quat :=
  ⟨Real.cos (a / 2), 0, 0, Real.sin (a / 2)⟩

/-- glam `Quat::from_euler(EulerRot::XYZ, a, b, c)`: intrinsic X-Y-Z rotation,
the composition of the three axis rotations. -/
noncomputable def Quat.from_euler_xyz (a b c : ℝ) : Quat :=
  (Quat.from_rotation_x a).mul ((Quat.from_rotation_y b).mul (Quat.from_rotation_z c))

/-- The four-quadrant arctangent `f32::atan2(y, x)` used by `get_acc_angles`,
embedded exactly over ℝ. -/
noncomputable def atan2 (y x : ℝ) : ℝ :=
  if 0 < x then Real.arctan (y / x)
  else if x < 0 then
    (if 0 ≤ y then Real.arctan (y / x) + Real.pi else Real.arctan (y / x) - Real.pi)
  else if 0 < y then Real.pi / 2
  else if y < 0 then -(Real.pi / 2)
  else 0

/-- The pitch expression of `get_acc_angles` in `src/lib.rs`:
`acc.y.atan2((acc.x.powf(2.0) + acc.z.powf(2.0)).sqrt())`. -/
noncomputable def acc_pitch (acc : Vec3) : ℝ :=
  atan2 acc.y (Real.sqrt (acc.x ^ 2 + acc.z ^ 2))

/-- The roll expression of `get_acc_angles` in `src/lib.rs`:
`(-acc.x).atan2((acc.y.powf(2.0) + acc.z.powf(2.0)).sqrt())`. -/
noncomputable def acc_roll (acc : Vec3) : ℝ :=
  atan2 (-acc.x) (Real.sqrt (acc.y ^ 2 + acc.z ^ 2))

/-- `get_acc_angles` from `src/lib.rs`: roll and pitch estimated from the
accelerometer reading, returned as the XYZ-Euler rotation with zero third angle. -/
noncomputable def get_acc_angles (d : Mpu6050) : Except Mpu6050Error Quat :=
  match get_acc d with
  | .error e => .error e
  | .ok acc => .ok (Quat.from_euler_xyz (acc_pitch acc) (acc_roll acc) 0)

/-- Recovery function for the first Euler angle (pitch) from the returned rotation;
total on the range of `get_acc_angles`. -/
noncomputable def recover_pitch (q : Quat) : ℝ :=
  2 * Real.arctan (q.x / q.w)

/-- Recovery function for the second Euler angle (roll) from the returned rotation;
total on the range of `get_acc_angles`. -/
noncomputable def recover_roll (q : Quat) : ℝ :=
  2 * Real.arctan (q.y / q.w)

/-! ## Auxiliary notions used by the statements -/

/-- A bus with no transport failures (§8: a simulated bus that always answers). -/
def Bus.noFail (b : Bus) : Prop :=
  (∀ reg v, b.failW reg v = false) ∧ (∀ reg, b.failR reg = false)

/-- The register file and log after a list of successful whole-byte writes, exactly
as `Bus.write` performs them. -/
def applyWrites (b : Bus) : List (Nat × Nat) → Bus
  | [] => b
  | p :: rest =>
    applyWrites { b with
      regs := fun r => if r = p.1 then p.2 else b.regs r,
      log := b.log ++ [p] } rest

/-- Step `i` of the motion-detection write sequence fails on the bus of `d`. -/
def motionStepFails (d : Mpu6050) (i : Nat) : Prop :=
  d.i2c.failW (motionSeq.getD i (0, 0)).1 (motionSeq.getD i (0, 0)).2 = true

/-- The C9 invariant: both cached sensitivity divisors are strictly positive. -/
def SensPos (d : Mpu6050) : Prop :=
  0 < d.acc_sensitivity ∧ 0 < d.gyro_sensitivity

/-- The reachable device states: everything `build` returns, closed under the
state-mutating operations of `src/lib.rs`. -/
inductive Reachable : Mpu6050 → Prop where
  | build (b : Mpu6050Builder) (d : Mpu6050) : b.build = .ok d → Reachable d
  | wake (d : Mpu6050) : Reachable d → Reachable (wake d).1
  | init (d : Mpu6050) : Reachable d → Reachable (init d).1
  | setup_motion_detection (d : Mpu6050) :
      Reachable d → Reachable (setup_motion_detection d).1
  | set_clock_source (d : Mpu6050) (s : CLKSEL) :
      Reachable d → Reachable (set_clock_source d s).1
  | set_accel_hpf (d : Mpu6050) (m : ACCEL_HPF) :
      Reachable d → Reachable (set_accel_hpf d m).1
  | set_gyro_range (d : Mpu6050) (r : GyroRange) :
      Reachable d → Reachable (set_gyro_range d r).1
  | set_accel_range (d : Mpu6050) (r : AccelRange) :
      Reachable d → Reachable (set_accel_range d r).1
  | reset_device (d : Mpu6050) : Reachable d → Reachable (reset_device d).1
  | set_sleep_enabled (d : Mpu6050) (e : Bool) :
      Reachable d → Reachable (set_sleep_enabled d e).1
  | set_temp_enabled (d : Mpu6050) (e : Bool) :
      Reachable d → Reachable (set_temp_enabled d e).1
  | set_accel_x_self_test (d : Mpu6050) (e : Bool) :
      Reachable d → Reachable (set_accel_x_self_test d e).1
  | set_accel_y_self_test (d : Mpu6050) (e : Bool) :
      Reachable d → Reachable (set_accel_y_self_test d e).1
  | set_accel_z_self_test (d : Mpu6050) (e : Bool) :
      Reachable d → Reachable (set_accel_z_self_test d e).1
  | write_byte (d : Mpu6050) (reg byte : Nat) :
      Reachable d → Reachable (write_byte d reg byte).1
  | write_bit (d : Mpu6050) (reg n : Nat) (e : Bool) :
      Reachable d → Reachable (write_bit d reg n e).1
  | write_bits (d : Mpu6050) (reg start length data : Nat) :
      Reachable d → Reachable (write_bits d reg start length data).1

/-! ## Concrete bus and device used by the witnesses -/

/-- A failure-free bus whose identity register answers the expected byte and whose
other registers read 0. -/
def witnessBus : Bus :=
  ⟨fun r => if r = WHOAMI then DEFAULT_SLAVE_ADDR else 0,
   fun _ _ => false, fun _ => false, []⟩

/-- A concrete device over `witnessBus` with the default configuration. -/
noncomputable def witnessDev : Mpu6050 :=
  ⟨witnessBus, DEFAULT_SLAVE_ADDR, 16384, 131, ⟨0, 0, 0⟩, ⟨0, 0, 0⟩⟩

/-- A concrete builder holding only a bus. -/
def witnessBuilder : Mpu6050Builder :=
  ⟨some witnessBus, none, none, none, none, none⟩

/-! ## testBit characterisations of the bit-field primitives -/

theorem testBit_255 (i : Nat) : (255 : Nat).testBit i = decide (i < 8) := by
  have h : (255 : Nat) = 2 ^ 8 - 1 := by norm_num
  rw [h, Nat.testBit_two_pow_sub_one]

theorem testBit_one_shiftLeft (n i : Nat) :
    ((1 : Nat) <<< n).testBit i = decide (n = i) := by
  rw [Nat.one_shiftLeft, Nat.testBit_two_pow]

theorem testBit_byte_high {byte : Nat} (hb : byte < 256) {i : Nat} (hi : 8 ≤ i) :
    byte.testBit i = false := by
  refine Nat.testBit_lt_two_pow (lt_of_lt_of_le hb ?_)
  calc (256 : Nat) = 2 ^ 8 := by norm_num
    _ ≤ 2 ^ i := Nat.pow_le_pow_right (by norm_num) hi

theorem get_bit_eq_testBit (byte n : Nat) :
    get_bit byte n = if byte.testBit n then 1 else 0 := by
  unfold get_bit
  rw [Nat.and_one_is_mod, Nat.testBit_to_div_mod, Nat.shiftRight_eq_div_pow]
  rcases Nat.mod_two_eq_zero_or_one (byte / 2 ^ n) with h | h <;> simp [h]

theorem testBit_set_bit (byte n : Nat) (enable : Bool) (hb : byte < 256) (hn : n < 8)
    (i : Nat) :
    (set_bit byte n enable).testBit i =
      if i = n then enable else byte.testBit i := by
  unfold set_bit
  cases enable with
  | false =>
    simp only [Bool.false_eq_true, if_false, Nat.testBit_and, Nat.testBit_xor,
      testBit_255, testBit_one_shiftLeft]
    by_cases hi : i = n
    · subst hi
      simp [hn]
    · by_cases hlt : i < 8
      · simp [hlt, hi, Ne.symm hi]
      · simp [hlt, hi, testBit_byte_high hb (by omega : 8 ≤ i)]
  | true =>
    simp only [if_true, Nat.testBit_or, testBit_one_shiftLeft]
    by_cases hi : i = n
    · subst hi
      simp
    · simp [hi, Ne.symm hi]

theorem testBit_run_mask (length lo i : Nat) :
    ((((1 : Nat) <<< length) - 1) <<< lo).testBit i =
      decide (lo ≤ i ∧ i < lo + length) := by
  rw [Nat.one_shiftLeft, Nat.testBit_shiftLeft, Nat.testBit_two_pow_sub_one]
  simp only [ge_iff_le]
  by_cases h : lo ≤ i
  · simp [h]
    omega
  · simp [h]

theorem testBit_set_bits (byte start length data : Nat) (hb : byte < 256)
    (hs : start < 8) (hl : length ≤ start + 1) (i : Nat) :
    (set_bits byte start length data).testBit i =
      if start + 1 - length ≤ i ∧ i < start + 1 then
        data.testBit (i - (start + 1 - length))
      else byte.testBit i := by
  unfold set_bits
  simp only [Nat.testBit_or, Nat.testBit_and, Nat.testBit_xor, testBit_255,
    testBit_run_mask]
  simp only [Nat.testBit_shiftLeft, ge_iff_le]
  have hll : (start + 1 - length) + length = start + 1 := by omega
  by_cases hin : start + 1 - length ≤ i ∧ i < (start + 1 - length) + length
  · have hi8 : i < 8 := by omega
    have hcond : start + 1 - length ≤ i ∧ i < start + 1 := by omega
    rw [if_pos hcond]
    simp [hin, hin.1, hi8]
  · have hcond : ¬(start + 1 - length ≤ i ∧ i < start + 1) := by omega
    rw [if_neg hcond]
    by_cases hi8 : i < 8
    · have hsplit : ¬(start + 1 ≤ i + length) ∨
        ¬(i < start + 1 - length + length) := by omega
      rcases hsplit with h | h <;> simp [h, hi8]
    · have hB : ¬(i < start + 1 - length + length) := by omega
      simp [hi8, hB, testBit_byte_high hb (by omega : 8 ≤ i)]

theorem get_bits_set_bits (byte start length data : Nat) (hb : byte < 256)
    (hs : start < 8) (hl : length ≤ start + 1) :
    get_bits (set_bits byte start length data) start length = data % 2 ^ length := by
  apply Nat.eq_of_testBit_eq
  intro i
  unfold get_bits
  rw [Nat.testBit_shiftRight, Nat.testBit_and, testBit_run_mask,
    testBit_set_bits byte start length data hb hs hl _, Nat.testBit_mod_two_pow]
  by_cases hi : i < length
  · have h1 : (start + 1 - length) ≤ (start + 1 - length) + i ∧
      (start + 1 - length) + i < (start + 1 - length) + length := by omega
    have hcond : (start + 1 - length) ≤ (start + 1 - length) + i ∧
      (start + 1 - length) + i < start + 1 := by omega
    rw [if_pos hcond]
    have h2 : (start + 1 - length) + i - (start + 1 - length) = i := by omega
    simp [hi, h1, h2]
  · have hcond : ¬((start + 1 - length) ≤ (start + 1 - length) + i ∧
      (start + 1 - length) + i < start + 1) := by omega
    rw [if_neg hcond]
    have h1 : ¬((start + 1 - length) + i < (start + 1 - length) + length) := by omega
    simp [hi, h1]

/-! ## Claim C1 -/

/-- C1: for every pair of input bytes `(high, low)` the two's-complement decoder
`read_word_2c` returns the signed 16-bit value of `word = (high << 8) | low`:
`word − 0x10000` when `word ≥ 0x8000`, otherwise `word` itself; in particular
the four boundary cases decode as `0`, `32767`, `−32768` and `−1`. -/
theorem read_word_2c_signed_value :
    (∀ high low : Nat, high < 256 → low < 256 →
      read_word_2c high low =
        if 0x8000 ≤ high * 256 + low then ((high : Int) * 256 + low) - 0x10000
        else (high : Int) * 256 + low) ∧
    read_word_2c 0x00 0x00 = 0 ∧ read_word_2c 0x7F 0xFF = 32767 ∧
    read_word_2c 0x80 0x00 = -32768 ∧ read_word_2c 0xFF 0xFF = -1 := by
  refine ⟨?_, by decide, by decide, by decide, by decide⟩
  intro high low _ _
  unfold read_word_2c
  have hcast : ((0x8000 : Int) ≤ (high : Int) * 256 + (low : Int)) ↔
      (0x8000 ≤ high * 256 + low) := by omega
  by_cases h : 0x8000 ≤ high * 256 + low
  · rw [if_pos (hcast.mpr h), if_pos h]
    ring
  · rw [if_neg (fun hc => h (hcast.mp hc)), if_neg h]

/-- Witness for C1 at a concrete input. -/
theorem read_word_2c_signed_value_witness :
    read_word_2c 0x12 0x34 = if 0x8000 ≤ 0x12 * 256 + 0x34
      then ((0x12 : Int) * 256 + 0x34) - 0x10000 else (0x12 : Int) * 256 + 0x34 :=
  read_word_2c_signed_value.1 0x12 0x34 (by decide) (by decide)

/-! ## Claim C6 -/

/-- C6: round-trip and frame properties of the bit-field primitives: reading back a
single written bit yields the written value with all other bits unchanged, and
reading back a written bit run yields the low `length` bits of the written data with
every bit outside the run `[start−length+1 .. start]` unchanged. -/
theorem bit_primitives_roundtrip :
    (∀ (b n : Nat) (v : Bool), b < 256 → n < 8 →
      get_bit (set_bit b n v) n = (if v then 1 else 0) ∧
      ∀ m, m ≠ n → get_bit (set_bit b n v) m = get_bit b m) ∧
    (∀ b start length data : Nat, b < 256 → start < 8 → length ≤ start + 1 →
      get_bits (set_bits b start length data) start length = data % 2 ^ length ∧
      ∀ m, ¬(start + 1 - length ≤ m ∧ m ≤ start) →
        get_bit (set_bits b start length data) m = get_bit b m) := by
  constructor
  · intro b n v hb hn
    constructor
    · rw [get_bit_eq_testBit, testBit_set_bit b n v hb hn n, if_pos rfl]
    · intro m hm
      rw [get_bit_eq_testBit, get_bit_eq_testBit, testBit_set_bit b n v hb hn m,
        if_neg hm]
  · intro b start length data hb hs hl
    refine ⟨get_bits_set_bits b start length data hb hs hl, ?_⟩
    intro m hm
    have hcond : ¬(start + 1 - length ≤ m ∧ m < start + 1) := by omega
    rw [get_bit_eq_testBit, get_bit_eq_testBit,
      testBit_set_bits b start length data hb hs hl m, if_neg hcond]

/-- Witness for C6 at concrete inputs. -/
theorem bit_primitives_roundtrip_witness :
    get_bit (set_bit 0xA5 3 true) 3 = 1 ∧
    get_bits (set_bits 0xA5 4 2 0x7) 4 2 = 0x7 % 2 ^ 2 := by
  constructor
  · have h := (bit_primitives_roundtrip.1 0xA5 3 true (by decide) (by decide)).1
    simpa using h
  · exact (bit_primitives_roundtrip.2 0xA5 4 2 0x7 (by decide) (by decide)
      (by decide)).1


/-! ## Claim C2 -/

/-- C2: for every decoded raw 3-axis reading and every device state, `get_acc`
returns `raw / acc_sensitivity + acc_offset` componentwise, and `get_gyro` returns
`raw * (π/180) / gyro_sensitivity + gyro_offset` componentwise; in both cases the
offset is added after the scaling, never before. -/
theorem raw_to_physical_scaling :
    (∀ (d : Mpu6050) (v : Vec3), read_rot d ACC_REGX_H = .ok v →
      get_acc d = .ok
        ⟨v.x / d.acc_sensitivity + d.acc_offset.x,
         v.y / d.acc_sensitivity + d.acc_offset.y,
         v.z / d.acc_sensitivity + d.acc_offset.z⟩) ∧
    (∀ (d : Mpu6050) (v : Vec3), read_rot d GYRO_REGX_H = .ok v →
      get_gyro d = .ok
        ⟨v.x * (Real.pi / 180) / d.gyro_sensitivity + d.gyro_offset.x,
         v.y * (Real.pi / 180) / d.gyro_sensitivity + d.gyro_offset.y,
         v.z * (Real.pi / 180) / d.gyro_sensitivity + d.gyro_offset.z⟩) := by
  constructor
  · intro d v h
    simp [get_acc, h, Vec3.divScalar, Vec3.add]
  · intro d v h
    simp only [get_gyro, h, Vec3.mulScalar, Vec3.add, PI_180, PI, Except.ok.injEq,
      Vec3.mk.injEq]
    refine ⟨by ring, by ring, by ring⟩

/-- Witness for C2 at the concrete failure-free device (all-zero data registers). -/
theorem raw_to_physical_scaling_witness :
    get_acc witnessDev = .ok ⟨0 / 16384 + 0, 0 / 16384 + 0, 0 / 16384 + 0⟩ := by
  have hv : read_rot witnessDev ACC_REGX_H = .ok ⟨0, 0, 0⟩ := by
    simp [read_rot, read_bytes, Bus.writeRead, witnessDev, witnessBus, read_word_2c,
      ACC_REGX_H, WHOAMI, List.range_succ]
  exact raw_to_physical_scaling.1 witnessDev ⟨0, 0, 0⟩ hv

/-! ## Claim C4 -/

/-- C4: under a failure-free transport, `init` fails with `InvalidChipId` carrying
the byte read from WHOAMI iff that byte differs from the expected identity value
`DEFAULT_SLAVE_ADDR` (0x68); in the mismatch case no other error kind is raised,
no write after the wake write (no rollback) is issued, and the device keeps its
slave address (still addressable). -/
theorem init_identity_mismatch (d : Mpu6050) (hnf : d.i2c.noFail) :
    ((∃ a, (init d).2 = .error (.InvalidChipId a)) ↔
      d.i2c.regs WHOAMI % 256 ≠ DEFAULT_SLAVE_ADDR) ∧
    (d.i2c.regs WHOAMI % 256 ≠ DEFAULT_SLAVE_ADDR →
      (init d).2 = .error (.InvalidChipId (d.i2c.regs WHOAMI % 256)) ∧
      (init d).1.slave_addr = d.slave_addr ∧
      (init d).1.i2c.log = d.i2c.log ++ [(PWR_MGMT_1.ADDR, 0x01)]) ∧
    (d.i2c.regs WHOAMI % 256 = DEFAULT_SLAVE_ADDR → (init d).2 = .ok ()) := by
  obtain ⟨hW, hR⟩ := hnf
  by_cases hid : d.i2c.regs WHOAMI % 256 = DEFAULT_SLAVE_ADDR
  · have hid2 := hid
    simp only [WHOAMI, DEFAULT_SLAVE_ADDR] at hid2
    refine ⟨?_, fun h => absurd hid h, fun _ => ?_⟩ <;>
      simp [init, wake, verify, set_accel_range, set_gyro_range, set_accel_hpf,
        write_bits, write_byte, read_byte, Bus.write, Bus.writeRead, hW, hR, hid2,
        WHOAMI, DEFAULT_SLAVE_ADDR, PWR_MGMT_1.ADDR, ACCEL_CONFIG.ADDR,
        GYRO_CONFIG.ADDR, List.range_succ]
  · have hid2 := hid
    simp only [WHOAMI, DEFAULT_SLAVE_ADDR] at hid2
    refine ⟨?_, fun _ => ?_, fun h => absurd h hid⟩ <;>
      simp [init, wake, verify, write_byte, read_byte, Bus.write, Bus.writeRead,
        hW, hR, hid2, WHOAMI, DEFAULT_SLAVE_ADDR, PWR_MGMT_1.ADDR, List.range_succ]

/-- Witness for C4 at a concrete failure-free device whose WHOAMI register answers
a wrong identity byte. -/
theorem init_identity_mismatch_witness :
    (init ⟨⟨fun _ => 0x42, fun _ _ => false, fun _ => false, []⟩,
      0x68, 16384, 131, ⟨0, 0, 0⟩, ⟨0, 0, 0⟩⟩).2 =
      .error (.InvalidChipId 0x42) := by
  have h := (init_identity_mismatch
    ⟨⟨fun _ => 0x42, fun _ _ => false, fun _ => false, []⟩,
      0x68, 16384, 131, ⟨0, 0, 0⟩, ⟨0, 0, 0⟩⟩
    ⟨fun _ _ => rfl, fun _ => rfl⟩).2.1 (by decide)
  simpa using h.1

/-! ## Claim C5 -/

/-- C5: `build` fails with the missing-bus error iff no bus handle was supplied;
otherwise it performs no bus I/O (the supplied bus is embedded unchanged) and every
unsupplied field takes its documented default: slave address 0x68, the ±2g and
±250°/s (most sensitive) sensitivity divisors, zero offset vectors. -/
theorem build_defaults (b : Mpu6050Builder) :
    (b.build = .error .NoI2cDeviceProvided ↔ b.i2c = none) ∧
    (∀ bus, b.i2c = some bus →
      ∃ d, b.build = .ok d ∧ d.i2c = bus ∧
        (b.slave_addr = none → d.slave_addr = 0x68) ∧
        (b.acc_sensitivity = none → d.acc_sensitivity = AccelRange.G2.sensitivity) ∧
        (b.gyro_sensitivity = none → d.gyro_sensitivity = GyroRange.D250.sensitivity) ∧
        (b.acc_offset = none → d.acc_offset = Vec3.zero) ∧
        (b.gyro_offset = none → d.gyro_offset = Vec3.zero)) ∧
    AccelRange.G2.sensitivity = 16384 ∧ GyroRange.D250.sensitivity = 131 := by
  refine ⟨?_, ?_, rfl, rfl⟩
  · cases hb : b.i2c <;> simp [Mpu6050Builder.build, hb]
  · intro bus hb
    refine ⟨{ i2c := bus,
              slave_addr := b.slave_addr.getD DEFAULT_SLAVE_ADDR,
              acc_sensitivity :=
                (b.acc_sensitivity.map AccelRange.sensitivity).getD ACCEL_SENS.1,
              gyro_sensitivity :=
                (b.gyro_sensitivity.map GyroRange.sensitivity).getD GYRO_SENS.1,
              gyro_offset := b.gyro_offset.getD Vec3.zero,
              acc_offset := b.acc_offset.getD Vec3.zero },
      by simp [Mpu6050Builder.build, hb], rfl, ?_, ?_, ?_, ?_, ?_⟩
    · intro h
      simp [h, DEFAULT_SLAVE_ADDR]
    · intro h
      simp [h, ACCEL_SENS, AccelRange.sensitivity]
    · intro h
      simp [h, GYRO_SENS, GyroRange.sensitivity]
    · intro h
      simp [h]
    · intro h
      simp [h]

/-- Witness for C5: a builder holding only a bus produces a device with the default
slave address and the ±2g default sensitivity. -/
theorem build_defaults_witness :
    ∃ d, witnessBuilder.build = .ok d ∧ d.i2c = witnessBus ∧
      d.slave_addr = 0x68 ∧ d.acc_sensitivity = AccelRange.G2.sensitivity := by
  obtain ⟨d, hd, hbus, hsl, hacc, _, _, _⟩ :=
    (build_defaults witnessBuilder).2.1 witnessBus rfl
  exact ⟨d, hd, hbus, hsl rfl, hacc rfl⟩

/-! ## Claim C7 -/

/-- C7: `setup_motion_detection` issues exactly the fixed ordered sequence
`motionSeq` of whole-byte writes with its literal constants; when every write
succeeds the whole sequence is applied in order and the call returns ok, and when
step `k` is the first failing write exactly the first `k` writes have been applied
(no later write is issued, the device keeps the state of the last successful
write) and the call returns the transport error. -/
theorem setup_motion_detection_sequence (d : Mpu6050) :
    ((∀ i, i < motionSeq.length → ¬ motionStepFails d i) →
      setup_motion_detection d =
        ({ d with i2c := applyWrites d.i2c motionSeq }, .ok ())) ∧
    (∀ k, k < motionSeq.length →
      (∀ i, i < k → ¬ motionStepFails d i) → motionStepFails d k →
      setup_motion_detection d =
        ({ d with i2c := applyWrites d.i2c (motionSeq.take k) },
          .error (.I2c ()))) := by
  constructor
  · intro hall
    have h0 : d.i2c.failW 0x6B 0x00 = false := by
      simpa [motionStepFails, motionSeq] using hall 0 (by norm_num [motionSeq])
    have h1 : d.i2c.failW 0x37 0x20 = false := by
      simpa [motionStepFails, motionSeq, INT_PIN_CFG.ADDR]
        using hall 1 (by norm_num [motionSeq])
    have h2 : d.i2c.failW 0x1C 0x01 = false := by
      simpa [motionStepFails, motionSeq, ACCEL_CONFIG.ADDR]
        using hall 2 (by norm_num [motionSeq])
    have h3 : d.i2c.failW 0x1F 10 = false := by
      simpa [motionStepFails, motionSeq, MOT_THR] using hall 3 (by norm_num [motionSeq])
    have h4 : d.i2c.failW 0x20 40 = false := by
      simpa [motionStepFails, motionSeq, MOT_DUR] using hall 4 (by norm_num [motionSeq])
    have h5 : d.i2c.failW 0x69 0x15 = false := by
      simpa [motionStepFails, motionSeq] using hall 5 (by norm_num [motionSeq])
    have h6 : d.i2c.failW 0x38 0x40 = false := by
      simpa [motionStepFails, motionSeq, INT_ENABLE.ADDR]
        using hall 6 (by norm_num [motionSeq])
    simp [setup_motion_detection, write_byte, Bus.write, applyWrites, motionSeq,
      INT_PIN_CFG.ADDR, ACCEL_CONFIG.ADDR, MOT_THR, MOT_DUR, INT_ENABLE.ADDR,
      h0, h1, h2, h3, h4, h5, h6]
  · intro k hk hprev hfail
    have hp : ∀ i, i < k →
        d.i2c.failW (motionSeq.getD i (0, 0)).1 (motionSeq.getD i (0, 0)).2 = false := by
      intro i hi
      simpa [motionStepFails] using hprev i hi
    have hk7 : k < 7 := by simpa [motionSeq] using hk
    interval_cases k
    · have f0 : d.i2c.failW 0x6B 0x00 = true := by
        simpa [motionStepFails, motionSeq] using hfail
      simp [setup_motion_detection, write_byte, Bus.write, applyWrites, motionSeq, f0]
    · have h0 : d.i2c.failW 0x6B 0x00 = false := by
        simpa [motionSeq] using hp 0 (by norm_num)
      have f1 : d.i2c.failW 0x37 0x20 = true := by
        simpa [motionStepFails, motionSeq, INT_PIN_CFG.ADDR] using hfail
      simp [setup_motion_detection, write_byte, Bus.write, applyWrites, motionSeq,
        INT_PIN_CFG.ADDR, h0, f1]
    · have h0 : d.i2c.failW 0x6B 0x00 = false := by
        simpa [motionSeq] using hp 0 (by norm_num)
      have h1 : d.i2c.failW 0x37 0x20 = false := by
        simpa [motionSeq, INT_PIN_CFG.ADDR] using hp 1 (by norm_num)
      have f2 : d.i2c.failW 0x1C 0x01 = true := by
        simpa [motionStepFails, motionSeq, ACCEL_CONFIG.ADDR] using hfail
      simp [setup_motion_detection, write_byte, Bus.write, applyWrites, motionSeq,
        INT_PIN_CFG.ADDR, ACCEL_CONFIG.ADDR, h0, h1, f2]
    · have h0 : d.i2c.failW 0x6B 0x00 = false := by
        simpa [motionSeq] using hp 0 (by norm_num)
      have h1 : d.i2c.failW 0x37 0x20 = false := by
        simpa [motionSeq, INT_PIN_CFG.ADDR] using hp 1 (by norm_num)
      have h2 : d.i2c.failW 0x1C 0x01 = false := by
        simpa [motionSeq, ACCEL_CONFIG.ADDR] using hp 2 (by norm_num)
      have f3 : d.i2c.failW 0x1F 10 = true := by
        simpa [motionStepFails, motionSeq, MOT_THR] using hfail
      simp [setup_motion_detection, write_byte, Bus.write, applyWrites, motionSeq,
        INT_PIN_CFG.ADDR, ACCEL_CONFIG.ADDR, MOT_THR, h0, h1, h2, f3]
    · have h0 : d.i2c.failW 0x6B 0x00 = false := by
        simpa [motionSeq] using hp 0 (by norm_num)
      have h1 : d.i2c.failW 0x37 0x20 = false := by
        simpa [motionSeq, INT_PIN_CFG.ADDR] using hp 1 (by norm_num)
      have h2 : d.i2c.failW 0x1C 0x01 = false := by
        simpa [motionSeq, ACCEL_CONFIG.ADDR] using hp 2 (by norm_num)
      have h3 : d.i2c.failW 0x1F 10 = false := by
        simpa [motionSeq, MOT_THR] using hp 3 (by norm_num)
      have f4 : d.i2c.failW 0x20 40 = true := by
        simpa [motionStepFails, motionSeq, MOT_DUR] using hfail
      simp [setup_motion_detection, write_byte, Bus.write, applyWrites, motionSeq,
        INT_PIN_CFG.ADDR, ACCEL_CONFIG.ADDR, MOT_THR, MOT_DUR, h0, h1, h2, h3, f4]
    · have h0 : d.i2c.failW 0x6B 0x00 = false := by
        simpa [motionSeq] using hp 0 (by norm_num)
      have h1 : d.i2c.failW 0x37 0x20 = false := by
        simpa [motionSeq, INT_PIN_CFG.ADDR] using hp 1 (by norm_num)
      have h2 : d.i2c.failW 0x1C 0x01 = false := by
        simpa [motionSeq, ACCEL_CONFIG.ADDR] using hp 2 (by norm_num)
      have h3 : d.i2c.failW 0x1F 10 = false := by
        simpa [motionSeq, MOT_THR] using hp 3 (by norm_num)
      have h4 : d.i2c.failW 0x20 40 = false := by
        simpa [motionSeq, MOT_DUR] using hp 4 (by norm_num)
      have f5 : d.i2c.failW 0x69 0x15 = true := by
        simpa [motionStepFails, motionSeq] using hfail
      simp [setup_motion_detection, write_byte, Bus.write, applyWrites, motionSeq,
        INT_PIN_CFG.ADDR, ACCEL_CONFIG.ADDR, MOT_THR, MOT_DUR, h0, h1, h2, h3, h4, f5]
    · have h0 : d.i2c.failW 0x6B 0x00 = false := by
        simpa [motionSeq] using hp 0 (by norm_num)
      have h1 : d.i2c.failW 0x37 0x20 = false := by
        simpa [motionSeq, INT_PIN_CFG.ADDR] using hp 1 (by norm_num)
      have h2 : d.i2c.failW 0x1C 0x01 = false := by
        simpa [motionSeq, ACCEL_CONFIG.ADDR] using hp 2 (by norm_num)
      have h3 : d.i2c.failW 0x1F 10 = false := by
        simpa [motionSeq, MOT_THR] using hp 3 (by norm_num)
      have h4 : d.i2c.failW 0x20 40 = false := by
        simpa [motionSeq, MOT_DUR] using hp 4 (by norm_num)
      have h5 : d.i2c.failW 0x69 0x15 = false := by
        simpa [motionSeq] using hp 5 (by norm_num)
      have f6 : d.i2c.failW 0x38 0x40 = true := by
        simpa [motionStepFails, motionSeq, INT_ENABLE.ADDR] using hfail
      simp [setup_motion_detection, write_byte, Bus.write, applyWrites, motionSeq,
        INT_PIN_CFG.ADDR, ACCEL_CONFIG.ADDR, MOT_THR, MOT_DUR, INT_ENABLE.ADDR,
        h0, h1, h2, h3, h4, h5, f6]

/-- Witness for C7: on the failure-free bus the full sequence is applied. -/
theorem setup_motion_detection_sequence_witness :
    setup_motion_detection witnessDev =
      ({ witnessDev with i2c := applyWrites witnessDev.i2c motionSeq }, .ok ()) := by
  refine (setup_motion_detection_sequence witnessDev).1 ?_
  intro i _
  simp [motionStepFails, witnessDev, witnessBus]

/-! ## Claim C8 -/

/-- Helper: `set_bit` keeps the value a byte. -/
theorem set_bit_lt_256 (b n : Nat) (v : Bool) (hb : b < 256) (hn : n < 8) :
    set_bit b n v < 256 := by
  unfold set_bit
  cases v with
  | false =>
    simp only [Bool.false_eq_true, if_false]
    exact lt_of_le_of_lt Nat.and_le_left hb
  | true =>
    simp only [if_true]
    have h1 : b < 2 ^ 8 := by norm_num [hb]
    have h2 : (1 : Nat) <<< n < 2 ^ 8 := by
      rw [Nat.one_shiftLeft]
      exact Nat.pow_lt_pow_right (by norm_num) hn
    have := Nat.or_lt_two_pow h1 h2
    simpa using this

/-- C8: `set_temp_enabled` writes the negation of `enable` into the TEMP_DIS bit of
the power-management register and leaves every other bit unchanged;
`get_temp_enabled` returns true exactly when that bit reads 0, so on a bus that
stores writes, get after set returns `enable`. -/
theorem temp_enabled_inverted_polarity :
    (∀ (d : Mpu6050) (enable : Bool), d.i2c.noFail →
      d.i2c.regs PWR_MGMT_1.ADDR < 256 →
      (set_temp_enabled d enable).2 = .ok () ∧
      (set_temp_enabled d enable).1.i2c.regs PWR_MGMT_1.ADDR =
        set_bit (d.i2c.regs PWR_MGMT_1.ADDR) PWR_MGMT_1.TEMP_DIS (!enable) ∧
      get_bit ((set_temp_enabled d enable).1.i2c.regs PWR_MGMT_1.ADDR)
          PWR_MGMT_1.TEMP_DIS = (if enable then 0 else 1) ∧
      (∀ m, m ≠ PWR_MGMT_1.TEMP_DIS →
        get_bit ((set_temp_enabled d enable).1.i2c.regs PWR_MGMT_1.ADDR) m =
          get_bit (d.i2c.regs PWR_MGMT_1.ADDR) m) ∧
      get_temp_enabled (set_temp_enabled d enable).1 = .ok enable) ∧
    (∀ d : Mpu6050, d.i2c.noFail →
      get_temp_enabled d =
        .ok (get_bit (d.i2c.regs PWR_MGMT_1.ADDR % 256) PWR_MGMT_1.TEMP_DIS == 0)) := by
  constructor
  · intro d enable hnf hreg
    obtain ⟨hW, hR⟩ := hnf
    have hmod : d.i2c.regs PWR_MGMT_1.ADDR % 256 = d.i2c.regs PWR_MGMT_1.ADDR :=
      Nat.mod_eq_of_lt hreg
    have hmod2 : d.i2c.regs 107 % 256 = d.i2c.regs 107 := by
      simpa [PWR_MGMT_1.ADDR] using hmod
    have hset : ∀ v : Bool,
        (set_temp_enabled d v).1.i2c.regs PWR_MGMT_1.ADDR =
          set_bit (d.i2c.regs PWR_MGMT_1.ADDR) PWR_MGMT_1.TEMP_DIS (!v) ∧
        (set_temp_enabled d v).2 = .ok () := by
      intro v
      constructor <;>
        simp [set_temp_enabled, write_bit, write_byte, read_byte, Bus.write,
          Bus.writeRead, hW, hR, hmod, hmod2, PWR_MGMT_1.ADDR, List.range_succ]
    have hlt : set_bit (d.i2c.regs PWR_MGMT_1.ADDR) PWR_MGMT_1.TEMP_DIS (!enable) < 256 :=
      set_bit_lt_256 _ _ _ hreg (by norm_num [PWR_MGMT_1.TEMP_DIS])
    have hbit : get_bit (set_bit (d.i2c.regs PWR_MGMT_1.ADDR)
        PWR_MGMT_1.TEMP_DIS (!enable)) PWR_MGMT_1.TEMP_DIS = (if enable then 0 else 1) := by
      rw [get_bit_eq_testBit,
        testBit_set_bit _ _ _ hreg (by norm_num [PWR_MGMT_1.TEMP_DIS]) _, if_pos rfl]
      cases enable <;> simp
    refine ⟨(hset enable).2, (hset enable).1, ?_, ?_, ?_⟩
    · rw [(hset enable).1]
      exact hbit
    · intro m hm
      rw [(hset enable).1, get_bit_eq_testBit, get_bit_eq_testBit,
        testBit_set_bit _ _ _ hreg (by norm_num [PWR_MGMT_1.TEMP_DIS]) _, if_neg hm]
    · have hregs := (hset enable).1
      have hok : get_temp_enabled (set_temp_enabled d enable).1 =
          .ok (get_bit ((set_temp_enabled d enable).1.i2c.regs PWR_MGMT_1.ADDR % 256)
            PWR_MGMT_1.TEMP_DIS == 0) := by
        simp [get_temp_enabled, read_bit, read_byte, Bus.writeRead,
          set_temp_enabled, write_bit, write_byte, Bus.write, hW, hR,
          PWR_MGMT_1.ADDR, List.range_succ, hmod, hmod2]
      rw [hok, hregs, Nat.mod_eq_of_lt hlt, hbit]
      cases enable <;> simp
  · intro d hnf
    obtain ⟨hW, hR⟩ := hnf
    simp [get_temp_enabled, read_bit, read_byte, Bus.writeRead, hR, List.range_succ]

/-- Witness for C8 at the concrete failure-free device. -/
theorem temp_enabled_inverted_polarity_witness :
    get_temp_enabled (set_temp_enabled witnessDev true).1 = .ok true :=
  ((temp_enabled_inverted_polarity.1 witnessDev true
    ⟨fun _ _ => rfl, fun _ => rfl⟩ (by norm_num [witnessDev, witnessBus,
      PWR_MGMT_1.ADDR, WHOAMI])).2.2.2.2)

/-! ## Claim C10 -/

/-- C10: the wake step writes the literal whole byte 0x01 to the power-management
register, so besides clearing the sleep bit and selecting the PLL-with-gyro-X
clock source (CLKSEL = 1) it zeroes every other bit, including TEMP_DIS; in
particular after a successful `init` the register holds 0x01 and the temperature
sensor reads as enabled again. -/
theorem wake_writes_whole_pwr_byte :
    (∀ d : Mpu6050, d.i2c.failW PWR_MGMT_1.ADDR 0x01 = false →
      (wake d).2 = .ok () ∧
      (wake d).1.i2c.regs PWR_MGMT_1.ADDR = 0x01 ∧
      (wake d).1.i2c.log = d.i2c.log ++ [(PWR_MGMT_1.ADDR, 0x01)]) ∧
    get_bit 0x01 PWR_MGMT_1.TEMP_DIS = 0 ∧
    get_bit 0x01 PWR_MGMT_1.SLEEP = 0 ∧
    get_bits 0x01 PWR_MGMT_1.CLKSEL.bit PWR_MGMT_1.CLKSEL.length = 0x01 ∧
    (∀ d : Mpu6050, d.i2c.noFail → (init d).2 = .ok () →
      (init d).1.i2c.regs PWR_MGMT_1.ADDR = 0x01 ∧
      get_temp_enabled (init d).1 = .ok true) := by
  refine ⟨?_, by decide, by decide, by decide, ?_⟩
  · intro d h
    have h2 : d.i2c.failW 107 0x01 = false := by simpa [PWR_MGMT_1.ADDR] using h
    refine ⟨?_, ?_, ?_⟩ <;> simp [wake, write_byte, Bus.write, h2, PWR_MGMT_1.ADDR]
  · intro d hnf hok
    obtain ⟨hW, hR⟩ := hnf
    by_cases hid : d.i2c.regs 0x75 % 256 = 0x68
    · refine ⟨?_, ?_⟩ <;>
        simp [init, wake, verify, set_accel_range, set_gyro_range, set_accel_hpf,
          write_bits, write_byte, read_byte, get_temp_enabled, read_bit, Bus.write,
          Bus.writeRead, hW, hR, hid, WHOAMI, DEFAULT_SLAVE_ADDR, PWR_MGMT_1.ADDR,
          PWR_MGMT_1.TEMP_DIS, ACCEL_CONFIG.ADDR, GYRO_CONFIG.ADDR, List.range_succ,
          get_bit]
    · exfalso
      have : (init d).2 = .error (.InvalidChipId (d.i2c.regs 0x75 % 256)) := by
        simp [init, wake, verify, write_byte, read_byte, Bus.write, Bus.writeRead,
          hW, hR, hid, WHOAMI, DEFAULT_SLAVE_ADDR, PWR_MGMT_1.ADDR, List.range_succ]
      rw [this] at hok
      exact Except.noConfusion hok

/-- Witness for C10: on the concrete failure-free device `init` succeeds and the
temperature sensor reads enabled afterwards. -/
theorem wake_writes_whole_pwr_byte_witness :
    get_temp_enabled (init witnessDev).1 = .ok true := by
  have hok : (init witnessDev).2 = .ok () := by
    simp [init, wake, verify, set_accel_range, set_gyro_range, set_accel_hpf,
      write_bits, write_byte, read_byte, Bus.write, Bus.writeRead, witnessDev,
      witnessBus, WHOAMI, DEFAULT_SLAVE_ADDR, PWR_MGMT_1.ADDR, ACCEL_CONFIG.ADDR,
      GYRO_CONFIG.ADDR, List.range_succ]
  exact (wake_writes_whole_pwr_byte.2.2.2.2 witnessDev
    ⟨fun _ _ => rfl, fun _ => rfl⟩ hok).2

/-! ## Claim C9 -/

theorem accel_sensitivity_pos (r : AccelRange) : 0 < r.sensitivity := by
  cases r <;> norm_num [AccelRange.sensitivity]

theorem gyro_sensitivity_pos (r : GyroRange) : 0 < r.sensitivity := by
  cases r <;> norm_num [GyroRange.sensitivity]

theorem write_byte_fields (d : Mpu6050) (reg byte : Nat) :
    (write_byte d reg byte).1.acc_sensitivity = d.acc_sensitivity ∧
    (write_byte d reg byte).1.gyro_sensitivity = d.gyro_sensitivity := by
  unfold write_byte Bus.write
  by_cases h : d.i2c.failW reg byte <;> simp [h]

theorem write_bit_fields (d : Mpu6050) (reg n : Nat) (e : Bool) :
    (write_bit d reg n e).1.acc_sensitivity = d.acc_sensitivity ∧
    (write_bit d reg n e).1.gyro_sensitivity = d.gyro_sensitivity := by
  unfold write_bit read_byte Bus.writeRead
  by_cases h : d.i2c.failR reg <;>
    simp [h, write_byte_fields d reg _]

theorem write_bits_fields (d : Mpu6050) (reg start length data : Nat) :
    (write_bits d reg start length data).1.acc_sensitivity = d.acc_sensitivity ∧
    (write_bits d reg start length data).1.gyro_sensitivity = d.gyro_sensitivity := by
  unfold write_bits read_byte Bus.writeRead
  by_cases h : d.i2c.failR reg <;>
    simp [h, write_byte_fields d reg _]

theorem write_byte_pres (d : Mpu6050) (reg byte : Nat) (h : SensPos d) :
    SensPos (write_byte d reg byte).1 :=
  ⟨(write_byte_fields d reg byte).1 ▸ h.1, (write_byte_fields d reg byte).2 ▸ h.2⟩

theorem write_bit_pres (d : Mpu6050) (reg n : Nat) (e : Bool) (h : SensPos d) :
    SensPos (write_bit d reg n e).1 :=
  ⟨(write_bit_fields d reg n e).1 ▸ h.1, (write_bit_fields d reg n e).2 ▸ h.2⟩

theorem write_bits_pres (d : Mpu6050) (reg start length data : Nat) (h : SensPos d) :
    SensPos (write_bits d reg start length data).1 :=
  ⟨(write_bits_fields d reg start length data).1 ▸ h.1,
   (write_bits_fields d reg start length data).2 ▸ h.2⟩

theorem set_accel_range_pres (d : Mpu6050) (r : AccelRange) (h : SensPos d) :
    SensPos (set_accel_range d r).1 := by
  unfold set_accel_range
  rcases hw : write_bits d ACCEL_CONFIG.ADDR ACCEL_CONFIG.FS_SEL.bit
      ACCEL_CONFIG.FS_SEL.length r.as_u8 with ⟨d1, res⟩
  have h1 : SensPos d1 := by
    have := write_bits_pres d ACCEL_CONFIG.ADDR ACCEL_CONFIG.FS_SEL.bit
      ACCEL_CONFIG.FS_SEL.length r.as_u8 h
    rwa [hw] at this
  cases res with
  | error e => exact h1
  | ok _ => exact ⟨accel_sensitivity_pos r, h1.2⟩

theorem set_gyro_range_pres (d : Mpu6050) (r : GyroRange) (h : SensPos d) :
    SensPos (set_gyro_range d r).1 := by
  unfold set_gyro_range
  rcases hw : write_bits d GYRO_CONFIG.ADDR GYRO_CONFIG.FS_SEL.bit
      GYRO_CONFIG.FS_SEL.length r.as_u8 with ⟨d1, res⟩
  have h1 : SensPos d1 := by
    have := write_bits_pres d GYRO_CONFIG.ADDR GYRO_CONFIG.FS_SEL.bit
      GYRO_CONFIG.FS_SEL.length r.as_u8 h
    rwa [hw] at this
  cases res with
  | error e => exact h1
  | ok _ => exact ⟨h1.1, gyro_sensitivity_pos r⟩

theorem init_pres (d : Mpu6050) (h : SensPos d) : SensPos (init d).1 := by
  unfold init
  split
  next d1 e heq =>
    have hw : SensPos (wake d).1 := write_byte_pres d PWR_MGMT_1.ADDR 0x01 h
    rw [heq] at hw
    exact hw
  next d1 a heq =>
    have hw : SensPos (wake d).1 := write_byte_pres d PWR_MGMT_1.ADDR 0x01 h
    rw [heq] at hw
    split
    next => exact hw
    next =>
      split
      next d2 e2 heq2 =>
        have ha : SensPos (set_accel_range d1 AccelRange.G2).1 :=
          set_accel_range_pres d1 AccelRange.G2 hw
        rw [heq2] at ha
        exact ha
      next d2 a2 heq2 =>
        have ha : SensPos (set_accel_range d1 AccelRange.G2).1 :=
          set_accel_range_pres d1 AccelRange.G2 hw
        rw [heq2] at ha
        split
        next d3 e3 heq3 =>
          have hg : SensPos (set_gyro_range d2 GyroRange.D250).1 :=
            set_gyro_range_pres d2 GyroRange.D250 ha
          rw [heq3] at hg
          exact hg
        next d3 a3 heq3 =>
          have hg : SensPos (set_gyro_range d2 GyroRange.D250).1 :=
            set_gyro_range_pres d2 GyroRange.D250 ha
          rw [heq3] at hg
          exact write_bits_pres d3 _ _ _ _ hg

theorem setup_motion_pres (d : Mpu6050) (h : SensPos d) :
    SensPos (setup_motion_detection d).1 := by
  unfold setup_motion_detection
  split
  next d1 e heq =>
    have hw : SensPos (write_byte d 0x6B 0x00).1 := write_byte_pres d 0x6B 0x00 h
    rw [heq] at hw
    exact hw
  next d1 a heq =>
    have hw1 : SensPos (write_byte d 0x6B 0x00).1 := write_byte_pres d 0x6B 0x00 h
    rw [heq] at hw1
    split
    next d2 e heq2 =>
      have hw : SensPos (write_byte d1 INT_PIN_CFG.ADDR 0x20).1 :=
        write_byte_pres d1 _ _ hw1
      rw [heq2] at hw
      exact hw
    next d2 a heq2 =>
      have hw2 : SensPos (write_byte d1 INT_PIN_CFG.ADDR 0x20).1 :=
        write_byte_pres d1 _ _ hw1
      rw [heq2] at hw2
      split
      next d3 e heq3 =>
        have hw : SensPos (write_byte d2 ACCEL_CONFIG.ADDR 0x01).1 :=
          write_byte_pres d2 _ _ hw2
        rw [heq3] at hw
        exact hw
      next d3 a heq3 =>
        have hw3 : SensPos (write_byte d2 ACCEL_CONFIG.ADDR 0x01).1 :=
          write_byte_pres d2 _ _ hw2
        rw [heq3] at hw3
        split
        next d4 e heq4 =>
          have hw : SensPos (write_byte d3 MOT_THR 10).1 := write_byte_pres d3 _ _ hw3
          rw [heq4] at hw
          exact hw
        next d4 a heq4 =>
          have hw4 : SensPos (write_byte d3 MOT_THR 10).1 := write_byte_pres d3 _ _ hw3
          rw [heq4] at hw4
          split
          next d5 e heq5 =>
            have hw : SensPos (write_byte d4 MOT_DUR 40).1 := write_byte_pres d4 _ _ hw4
            rw [heq5] at hw
            exact hw
          next d5 a heq5 =>
            have hw5 : SensPos (write_byte d4 MOT_DUR 40).1 := write_byte_pres d4 _ _ hw4
            rw [heq5] at hw5
            split
            next d6 e heq6 =>
              have hw : SensPos (write_byte d5 0x69 0x15).1 := write_byte_pres d5 _ _ hw5
              rw [heq6] at hw
              exact hw
            next d6 a heq6 =>
              have hw6 : SensPos (write_byte d5 0x69 0x15).1 := write_byte_pres d5 _ _ hw5
              rw [heq6] at hw6
              exact write_byte_pres d6 INT_ENABLE.ADDR 0x40 hw6

theorem build_sens (b : Mpu6050Builder) (d : Mpu6050) (hb : b.build = .ok d) :
    SensPos d := by
  unfold Mpu6050Builder.build at hb
  cases hbus : b.i2c with
  | none =>
    rw [hbus] at hb
    exact Except.noConfusion hb
  | some bus =>
    rw [hbus] at hb
    injection hb with hd
    subst hd
    constructor
    · cases ha : b.acc_sensitivity with
      | none => simp [ha, ACCEL_SENS]
      | some r => simp [ha, accel_sensitivity_pos r]
    · cases hg : b.gyro_sensitivity with
      | none => simp [hg, GYRO_SENS]
      | some r => simp [hg, gyro_sensitivity_pos r]

/-- C9: in every reachable device state — after `build` and after every
state-mutating operation, including `set_accel_range` and `set_gyro_range` — both
cached sensitivity divisors are strictly positive, because every range variant maps
to a positive sensitivity. -/
theorem sensitivity_always_positive :
    (∀ r : AccelRange, 0 < r.sensitivity) ∧
    (∀ r : GyroRange, 0 < r.sensitivity) ∧
    (∀ d : Mpu6050, Reachable d → SensPos d) := by
  refine ⟨accel_sensitivity_pos, gyro_sensitivity_pos, ?_⟩
  intro d h
  induction h with
  | build b d hb => exact build_sens b d hb
  | wake d _ ih => exact write_byte_pres d PWR_MGMT_1.ADDR 0x01 ih
  | init d _ ih => exact init_pres d ih
  | setup_motion_detection d _ ih => exact setup_motion_pres d ih
  | set_clock_source d s _ ih => exact write_bits_pres d _ _ _ _ ih
  | set_accel_hpf d m _ ih => exact write_bits_pres d _ _ _ _ ih
  | set_gyro_range d r _ ih => exact set_gyro_range_pres d r ih
  | set_accel_range d r _ ih => exact set_accel_range_pres d r ih
  | reset_device d _ ih => exact write_bit_pres d _ _ _ ih
  | set_sleep_enabled d e _ ih => exact write_bit_pres d _ _ _ ih
  | set_temp_enabled d e _ ih => exact write_bit_pres d _ _ _ ih
  | set_accel_x_self_test d e _ ih => exact write_bit_pres d _ _ _ ih
  | set_accel_y_self_test d e _ ih => exact write_bit_pres d _ _ _ ih
  | set_accel_z_self_test d e _ ih => exact write_bit_pres d _ _ _ ih
  | write_byte d reg byte _ ih => exact write_byte_pres d reg byte ih
  | write_bit d reg n e _ ih => exact write_bit_pres d reg n e ih
  | write_bits d reg start length data _ ih => exact write_bits_pres d _ _ _ _ ih

/-- Witness for C9: the device produced by the bus-only builder is reachable and
has positive sensitivities. -/
theorem sensitivity_always_positive_witness :
    SensPos ⟨witnessBus, DEFAULT_SLAVE_ADDR, ACCEL_SENS.1, GYRO_SENS.1,
      Vec3.zero, Vec3.zero⟩ :=
  sensitivity_always_positive.2.2 _ (Reachable.build witnessBuilder _ rfl)

/-! ## Claim C3 -/

theorem atan2_bounds (y x : ℝ) (hx : 0 ≤ x) :
    -(Real.pi / 2) ≤ atan2 y x ∧ atan2 y x ≤ Real.pi / 2 := by
  have hpi := Real.pi_pos
  unfold atan2
  rcases lt_or_eq_of_le hx with hpos | heq
  · rw [if_pos hpos]
    exact ⟨(Real.neg_pi_div_two_lt_arctan _).le, (Real.arctan_lt_pi_div_two _).le⟩
  · rw [if_neg (by rw [← heq]; exact lt_irrefl 0),
      if_neg (by rw [← heq]; exact lt_irrefl 0)]
    by_cases hy : 0 < y
    · rw [if_pos hy]
      exact ⟨by linarith, le_refl _⟩
    · rw [if_neg hy]
      by_cases hy2 : y < 0
      · rw [if_pos hy2]
        exact ⟨le_refl _, by linarith⟩
      · rw [if_neg hy2]
        constructor <;> linarith

theorem from_euler_xyz_third_zero (p r : ℝ) :
    Quat.from_euler_xyz p r 0 =
      ⟨Real.cos (p / 2) * Real.cos (r / 2),
       Real.sin (p / 2) * Real.cos (r / 2),
       Real.cos (p / 2) * Real.sin (r / 2),
       Real.sin (p / 2) * Real.sin (r / 2)⟩ := by
  simp only [Quat.from_euler_xyz, Quat.from_rotation_x, Quat.from_rotation_y,
    Quat.from_rotation_z, Quat.mul, zero_div, Real.cos_zero, Real.sin_zero,
    Quat.mk.injEq]
  refine ⟨by ring, by ring, by ring, by ring⟩

theorem recover_from_euler (p r : ℝ)
    (hp1 : -(Real.pi / 2) ≤ p) (hp2 : p ≤ Real.pi / 2)
    (hr1 : -(Real.pi / 2) ≤ r) (hr2 : r ≤ Real.pi / 2) :
    recover_pitch (Quat.from_euler_xyz p r 0) = p ∧
    recover_roll (Quat.from_euler_xyz p r 0) = r := by
  have hpi := Real.pi_pos
  have hpc : 0 < Real.cos (p / 2) :=
    Real.cos_pos_of_mem_Ioo ⟨by linarith, by linarith⟩
  have hrc : 0 < Real.cos (r / 2) :=
    Real.cos_pos_of_mem_Ioo ⟨by linarith, by linarith⟩
  rw [from_euler_xyz_third_zero]
  unfold recover_pitch recover_roll
  dsimp only
  constructor
  · rw [mul_div_mul_right _ _ (ne_of_gt hrc), ← Real.tan_eq_sin_div_cos,
      Real.arctan_tan (by linarith) (by linarith)]
    ring
  · rw [mul_div_mul_left _ _ (ne_of_gt hpc), ← Real.tan_eq_sin_div_cos,
      Real.arctan_tan (by linarith) (by linarith)]
    ring

/-- C3: for every acceleration vector produced by `get_acc`, `get_acc_angles`
returns the rotation with Euler angles (pitch, roll, 0), from which the two scalar
angles `pitch = atan2(y, sqrt(x² + z²))` and `roll = atan2(−x, sqrt(y² + z²))` are
exactly recoverable; in particular acceleration (0,0,1) yields pitch 0 and roll 0,
and acceleration (1,0,0) yields roll −π/2. -/
theorem acc_angles_recoverable :
    (∀ (d : Mpu6050) (acc : Vec3), get_acc d = .ok acc →
      get_acc_angles d = .ok (Quat.from_euler_xyz (acc_pitch acc) (acc_roll acc) 0) ∧
      recover_pitch (Quat.from_euler_xyz (acc_pitch acc) (acc_roll acc) 0) =
        acc_pitch acc ∧
      recover_roll (Quat.from_euler_xyz (acc_pitch acc) (acc_roll acc) 0) =
        acc_roll acc) ∧
    acc_pitch ⟨0, 0, 1⟩ = 0 ∧ acc_roll ⟨0, 0, 1⟩ = 0 ∧
    acc_roll ⟨1, 0, 0⟩ = -(Real.pi / 2) := by
  have hpitch : ∀ acc : Vec3,
      -(Real.pi / 2) ≤ acc_pitch acc ∧ acc_pitch acc ≤ Real.pi / 2 := fun acc =>
    atan2_bounds _ _ (Real.sqrt_nonneg _)
  have hroll : ∀ acc : Vec3,
      -(Real.pi / 2) ≤ acc_roll acc ∧ acc_roll acc ≤ Real.pi / 2 := fun acc =>
    atan2_bounds _ _ (Real.sqrt_nonneg _)
  refine ⟨?_, ?_, ?_, ?_⟩
  · intro d acc h
    have hrec := recover_from_euler (acc_pitch acc) (acc_roll acc)
      (hpitch acc).1 (hpitch acc).2 (hroll acc).1 (hroll acc).2
    exact ⟨by simp [get_acc_angles, h], hrec.1, hrec.2⟩
  · show atan2 (0 : ℝ) (Real.sqrt ((0 : ℝ) ^ 2 + 1 ^ 2)) = 0
    have h1 : ((0 : ℝ) ^ 2 + 1 ^ 2) = 1 := by norm_num
    rw [h1, Real.sqrt_one]
    unfold atan2
    rw [if_pos (by norm_num : (0 : ℝ) < 1)]
    simp [Real.arctan_zero]
  · show atan2 (-(0 : ℝ)) (Real.sqrt ((0 : ℝ) ^ 2 + 1 ^ 2)) = 0
    have h1 : ((0 : ℝ) ^ 2 + 1 ^ 2) = 1 := by norm_num
    rw [h1, Real.sqrt_one]
    unfold atan2
    rw [if_pos (by norm_num : (0 : ℝ) < 1)]
    simp [Real.arctan_zero]
  · show atan2 (-(1 : ℝ)) (Real.sqrt ((0 : ℝ) ^ 2 + 0 ^ 2)) = -(Real.pi / 2)
    have h1 : ((0 : ℝ) ^ 2 + 0 ^ 2) = 0 := by norm_num
    rw [h1, Real.sqrt_zero]
    unfold atan2
    rw [if_neg (lt_irrefl 0), if_neg (lt_irrefl 0),
      if_neg (by norm_num : ¬(0 : ℝ) < -1), if_pos (by norm_num : (-1 : ℝ) < 0)]

/-- Witness for C3 at the concrete failure-free device (all-zero data registers). -/
theorem acc_angles_recoverable_witness :
    get_acc_angles witnessDev =
      .ok (Quat.from_euler_xyz
        (acc_pitch ⟨0 / 16384 + 0, 0 / 16384 + 0, 0 / 16384 + 0⟩)
        (acc_roll ⟨0 / 16384 + 0, 0 / 16384 + 0, 0 / 16384 + 0⟩) 0) := by
  have hacc : get_acc witnessDev =
      .ok ⟨0 / 16384 + 0, 0 / 16384 + 0, 0 / 16384 + 0⟩ := by
    simp [get_acc, read_rot, read_bytes, Bus.writeRead, witnessDev, witnessBus,
      read_word_2c, ACC_REGX_H, WHOAMI, List.range_succ, Vec3.divScalar, Vec3.add]
  exact (acc_angles_recoverable.1 witnessDev _ hacc).1

end Mpu6050Verif
